import Mathlib

/-!
# Verification of the PipeRelay relay engine (`piperelay.py`)

Shallow embedding of the relay engine: the `MessageObject` envelope and its
JSON codec, the `NamedPipeInterface` transport session, the `Root` outbound
queue with its drain worker, and the `Main` client receive/acknowledge loop.

The JSON text layer is the standard library's `json.dumps`/`json.loads`
(an external collaborator).  The embedding therefore works at the level of
decoded JSON values: a `Json` value is the result of decoding a string, and
an input of type `Option Json` stands for an arbitrary input string, `none`
meaning a string on which `json.loads` raises (invalid JSON) and `some v`
a string decoding to the value `v`.  `MessageObject.to_json` produces the
dictionary passed to `json.dumps`; since `json.loads (json.dumps d) = d`,
serializing an envelope and decoding the resulting string yields exactly
this dictionary.

Python exceptions are modelled with `Except`; the error taxonomy maps
`json.JSONDecodeError` to `MalformedPayload`, the `KeyError`s raised by the
validation loop and by dictionary indexing to `MissingField`, `TypeError`
to `TypeErr`, `UnboundLocalError` in `_handle_name` to `MissingName`, and
the two uses of `OperationalError` to `InvalidState` (send/recv before
bind/connect) and `AlreadyBound` (double bind/connect).  A failed write on
a pipe peer raises inside `wpipe`, modelled as `WriteError`.
-/

/-- A decoded JSON value, as produced by `json.loads`. -/
inductive Json where
  | null : Json
  | bool (b : Bool) : Json
  | num (n : Int) : Json
  | str (s : String) : Json
  | arr (elems : List Json) : Json
  | obj (members : List (String × Json)) : Json

/-- The error taxonomy of the relay engine (see module comment). -/
inductive PipeError where
  | MalformedPayload : PipeError
  | MissingField (name : String) : PipeError
  | TypeErr : PipeError
  | MissingName : PipeError
  | InvalidState : PipeError
  | AlreadyBound : PipeError
  | WriteError : PipeError
deriving DecidableEq

/-- Python string equality of a JSON value against a string literal:
`v == s` is true exactly when `v` is the string `s` (values of any other
type compare unequal to a `str`). -/
def Json.isStrEq (v : Json) (s : String) : Bool :=
  match v with
  | .str t => t == s
  | _ => false

/-- Python substring test `needle in hay` on strings. -/
def strContainsSub (hay needle : String) : Bool :=
  (List.range (hay.length + 1)).any (fun i => (hay.drop i).take needle.length == needle)

/-- Key membership in a decoded JSON object (`key in dict`). -/
def dictHasKey (m : List (String × Json)) (k : String) : Bool :=
  m.any (fun p => p.1 == k)

/-- Dictionary indexing `d[k]`: the value stored at `k`, or a `KeyError`
(`MissingField k`) when the key is absent. -/
def dictGet (m : List (String × Json)) (k : String) : Except PipeError Json :=
  match m with
  | [] => .error (.MissingField k)
  | (k', v) :: rest => if k' == k then .ok v else dictGet rest k

/-- The Python membership operator `k in v` on a decoded JSON value:
key membership for a dict, element equality for a list, substring test for
a string, and a `TypeError` for the non-container types. -/
def pyContains (v : Json) (k : String) : Except PipeError Bool :=
  match v with
  | .obj m => .ok (dictHasKey m k)
  | .arr l => .ok (l.any (fun e => e.isStrEq k))
  | .str s => .ok (strContainsSub s k)
  | _ => .error .TypeErr

/-- The Python indexing operator `v[k]` with a string key: dictionary
lookup for a dict, a `TypeError` for every other decoded JSON value. -/
def pyIndex (v : Json) (k : String) : Except PipeError Json :=
  match v with
  | .obj m => dictGet m k
  | _ => .error .TypeErr

/-- The class MessageObject: the message envelope.  The constructor performs
no validation, so the fields hold arbitrary decoded values. -/
structure MessageObject where
  source : Json
  destination : Json
  content : Json

/-- Method `MessageObject.to_json`: the dictionary
`{"source": .., "destination": .., "content": ..}` handed to `json.dumps`
(the serialized string decodes back to exactly this value). -/
def MessageObject.to_json (m : MessageObject) : Json :=
  .obj [("source", m.source), ("destination", m.destination), ("content", m.content)]

/-- One step of the validation loop in `MessageObject.from_json`:
`if item not in message_dict: raise KeyError(...)`. -/
def requireKey (md : Json) (item : String) : Except PipeError Unit :=
  match pyContains md item with
  | .error e => .error e
  | .ok true => .ok ()
  | .ok false => .error (.MissingField item)

/-- Method `MessageObject.from_json`: decode the input (`none` = `json.loads`
raised, i.e. `MalformedPayload`), check `"content"`, `"source"`,
`"destination"` for membership in that order, then build the envelope from
`message_dict["source"]`, `["destination"]`, `["content"]`. -/
def MessageObject.from_json (input : Option Json) : Except PipeError MessageObject :=
  match input with
  | none => .error .MalformedPayload
  | some md =>
    match requireKey md "content" with
    | .error e => .error e
    | .ok _ =>
      match requireKey md "source" with
      | .error e => .error e
      | .ok _ =>
        match requireKey md "destination" with
        | .error e => .error e
        | .ok _ =>
          match pyIndex md "source" with
          | .error e => .error e
          | .ok s =>
            match pyIndex md "destination" with
            | .error e => .error e
            | .ok d =>
              match pyIndex md "content" with
              | .error e => .error e
              | .ok c => .ok ⟨s, d, c⟩

/-! ## `class NamedPipeInterface`: the transport session

The session's mutable attributes (`mode`, `_pipe_name`, `pipe_handle`) form
the state `PipeState`; `wpipe` itself is the external collaborator, so the
behaviour of its peers during one `send`/`recv` call (which writes succeed,
which peers are readable and what they deliver) is passed in as a world
argument, and the completed peer writes are returned as an explicit trace. -/

/-- The kind of `wpipe` handle stored in `pipe_handle` (`wpipe.Server` from
`bind`, `wpipe.Client` from `connect`); `none` in `PipeState.pipe_handle`
is Python's `None`. -/
inductive PipeHandle where
  | server : PipeHandle
  | client : PipeHandle
deriving DecidableEq

/-- The mutable attributes of a `NamedPipeInterface` instance:
`self.mode` (`None`, `"SERVER"` or `"CLIENT"`), `self._pipe_name`
(initially `""`), `self.pipe_handle` (initially `None`). -/
structure PipeState where
  mode : Option String
  pipe_name : String
  pipe_handle : Option PipeHandle
deriving DecidableEq

/-- The state set up by `NamedPipeInterface.__init__`. -/
def NamedPipeInterface.freshPipe : PipeState := ⟨none, "", none⟩

/-- Python truthiness of an optional string: falsy when `None` or `""`. -/
def pyFalsyStr (s : Option String) : Bool :=
  match s with
  | none => true
  | some t => t == ""

/-- Method `NamedPipeInterface.is_server`. -/
def NamedPipeInterface.is_server (st : PipeState) : Bool :=
  st.mode == some "SERVER"

/-- Method `NamedPipeInterface._handle_name`: resolve the effective pipe name.
A falsy argument falls back to the remembered `_pipe_name`
(`UnboundLocalError`, i.e. `MissingName`, when that is empty); a truthy
argument is stored into `_pipe_name` before anything else happens. -/
def NamedPipeInterface.handle_name (st : PipeState) (name : Option String) :
    Except PipeError (String × PipeState) :=
  if pyFalsyStr name then
    if st.pipe_name == "" then .error .MissingName
    else .ok (st.pipe_name, st)
  else
    match name with
    | none => .error .MissingName
    | some n => .ok (n, { st with pipe_name := n })

/-- Method `NamedPipeInterface.bind`: resolve the name, refuse when a handle
already exists (`OperationalError`, i.e. `AlreadyBound`), otherwise open a
`wpipe.Server` and set `mode = "SERVER"`.  The state component of the
result is the session state after the call, also when the call raises. -/
def NamedPipeInterface.bind (st : PipeState) (name : Option String) :
    Except PipeError Unit × PipeState :=
  match NamedPipeInterface.handle_name st name with
  | .error e => (.error e, st)
  | .ok (_, st') =>
    if st'.pipe_handle.isSome then (.error .AlreadyBound, st')
    else (.ok (), { st' with pipe_handle := some .server, mode := some "SERVER" })

/-- Method `NamedPipeInterface.connect`: same shape as `bind`, opening a
`wpipe.Client` and setting `mode = "CLIENT"`. -/
def NamedPipeInterface.connect (st : PipeState) (name : Option String) :
    Except PipeError Unit × PipeState :=
  match NamedPipeInterface.handle_name st name with
  | .error e => (.error e, st)
  | .ok (_, st') =>
    if st'.pipe_handle.isSome then (.error .AlreadyBound, st')
    else (.ok (), { st' with pipe_handle := some .client, mode := some "CLIENT" })

/-- External behaviour of the pipe during one `send` call: for each
connected peer, in the enumeration order of `self.pipe_handle`, whether
its `write` succeeds (`true`) or raises; `clientWriteOk` likewise for the
single client-mode `self.pipe_handle.write`. -/
structure SendWorld where
  peers : List Bool
  clientWriteOk : Bool

/-- Result of one `send` call: the completed peer writes, as
`(peer index, decoded payload)` in the order they were performed, and the
exception propagated to the caller, if any. -/
structure SendOutcome where
  writes : List (Nat × Json)
  error : Option PipeError

/-- The fan-out loop `for client in self.pipe_handle: client.write(..)`,
starting at peer index `i`: writes stop at the first failing peer, whose
exception propagates; earlier writes stay completed. -/
def NamedPipeInterface.fanoutWrites (payload : Json) :
    List Bool → Nat → List (Nat × Json) × Option PipeError
  | [], _ => ([], none)
  | ok :: rest, i =>
    if ok then
      let r := NamedPipeInterface.fanoutWrites payload rest (i + 1)
      ((i, payload) :: r.1, r.2)
    else ([], some .WriteError)

/-- Method `NamedPipeInterface.send`: refuse before bind/connect
(`OperationalError`, i.e. `InvalidState`); in SERVER mode fan the
serialized envelope out to every peer unless the destination is the
`"NORELAY"` sentinel (then write nothing); in CLIENT mode write to the
single pipe. -/
def NamedPipeInterface.send (st : PipeState) (w : SendWorld) (m : MessageObject) :
    SendOutcome :=
  if st.pipe_handle.isNone || pyFalsyStr st.mode then ⟨[], some .InvalidState⟩
  else if NamedPipeInterface.is_server st && !(m.destination.isStrEq "NORELAY") then
    let r := NamedPipeInterface.fanoutWrites m.to_json w.peers 0
    ⟨r.1, r.2⟩
  else if !(NamedPipeInterface.is_server st) then
    if w.clientWriteOk then ⟨[(0, m.to_json)], none⟩ else ⟨[], some .WriteError⟩
  else ⟨[], none⟩

/-- External behaviour of one peer during a SERVER-mode `recv`:
`notReadable` — `client.canread()` is false; `readRaises` — `canread` or
`read` raises (caught and skipped); `msg raw` — `read` returns a string
whose decoded value is `raw` (`none` when the string is invalid JSON, so
parsing it raises, also caught). -/
inductive RecvPeer where
  | notReadable : RecvPeer
  | readRaises : RecvPeer
  | msg (raw : Option Json) : RecvPeer

/-- External behaviour of the pipe during one `recv` call: the connected
peers in enumeration order (SERVER mode), and the result of the single
blocking `read` in CLIENT mode (`none` — the read returned an empty,
falsy message; `some raw` — it returned a string decoding to `raw`). -/
structure RecvWorld where
  serverPeers : List RecvPeer
  clientRead : Option (Option Json)

/-- The SERVER-mode `recv` loop: for every peer, read and parse inside a
`try`/`except` that logs and `continue`s, so one peer's failure never
affects the others. -/
def NamedPipeInterface.recvServerLoop : List RecvPeer → List MessageObject
  | [] => []
  | .notReadable :: rest => NamedPipeInterface.recvServerLoop rest
  | .readRaises :: rest => NamedPipeInterface.recvServerLoop rest
  | .msg raw :: rest =>
    match MessageObject.from_json raw with
    | .ok m => m :: NamedPipeInterface.recvServerLoop rest
    | .error _ => NamedPipeInterface.recvServerLoop rest

/-- Method `NamedPipeInterface.recv`: refuse before bind/connect; SERVER mode
runs the per-peer loop above; CLIENT mode polls until readable, performs
one blocking read and parses it — with no `try`/`except`, so a parse
failure propagates to the caller. -/
def NamedPipeInterface.recv (st : PipeState) (w : RecvWorld) :
    Except PipeError (List MessageObject) :=
  if st.pipe_handle.isNone || pyFalsyStr st.mode then .error .InvalidState
  else if NamedPipeInterface.is_server st then
    .ok (NamedPipeInterface.recvServerLoop w.serverPeers)
  else
    match w.clientRead with
    | none => .ok []
    | some raw =>
      match MessageObject.from_json raw with
      | .ok m => .ok [m]
      | .error e => .error e

/-! ## `class Root`: outbound queue, drain worker, HTTP ingress

Queue elements are the raw serialized payload strings, represented by
their decoded values (`none` = a string that is not valid JSON).  The
drain worker `_message_thread` is modelled as a step function on
`RootState`, one step per loop iteration, with explicit traces of the
`send` calls issued and of the `time.sleep` pauses taken (milliseconds). -/

/-- State of a `Root` instance together with the observable traces of its
drain worker: `alive` and `message_queue` are the attributes of the same
names, `pipe` is the bound server session, `sends` records the arguments
of the `self.server.send` calls issued, `logs` counts the exceptions
logged by the `except` block, `sleeps` records the `time.sleep` pauses in
milliseconds. -/
structure RootState where
  alive : Bool
  message_queue : List (Option Json)
  pipe : PipeState
  sends : List MessageObject
  logs : Nat
  sleeps : List Nat

/-- The `Root` state right after `start_message_thread` set
`self.alive = True`, with queue contents `q`. -/
def Root.initState (q : List (Option Json)) (pipe : PipeState) : RootState :=
  ⟨true, q, pipe, [], 0, []⟩

/-- One iteration of `Root._message_thread` under send-world `w`: when the
loop guard `self.alive` is false the loop has exited and the state is
left as is; on an empty queue, `time.sleep(0.5)`; otherwise parse the head
`self.message_queue[0]`, on success call `self.server.send` (whose own
failure is caught and logged), on failure log, and in all cases the
`finally` block pops exactly the head. -/
def Root.messageThreadStep (w : SendWorld) (s : RootState) : RootState :=
  if !s.alive then s
  else
    match s.message_queue with
    | [] => { s with sleeps := s.sleeps ++ [500] }
    | p :: rest =>
      match MessageObject.from_json p with
      | .error _ => { s with logs := s.logs + 1, message_queue := rest }
      | .ok m =>
        let out := NamedPipeInterface.send s.pipe w m
        { s with
            sends := s.sends ++ [m],
            logs := s.logs + (if out.error.isSome then 1 else 0),
            message_queue := rest }

/-- Iterate the drain-worker loop `n` times. -/
def Root.messageThreadRun (w : SendWorld) : Nat → RootState → RootState
  | 0, s => s
  | n + 1, s => Root.messageThreadRun w n (Root.messageThreadStep w s)

/-- The response dictionary of `Root.post_interface`:
`{"operation": "POST", "successful": ..}`. -/
structure PostResult where
  operation : String
  successful : Bool
deriving DecidableEq

/-- The validation loop of `Root.post_interface`: `successful` starts
`True` and is cleared whenever one of `"source"`, `"destination"`,
`"content"` is not `in` the decoded request body (the `in` operator may
itself raise on non-container bodies). -/
def Root.postValidate (body : Json) : Except PipeError Bool :=
  List.foldlM
    (fun ok key => do
      let b ← pyContains body key
      pure (ok && b))
    true ["source", "destination", "content"]

/-- Method `Root.post_interface`: validate the decoded request body `body`
(supplied by the HTTP collaborator's `json_in` tool); when validation
passes, append `json.dumps(body)` — a string decoding back to `body` — to
`self.message_queue`; return the response dictionary and the queue after
the call. -/
def Root.post_interface (q : List (Option Json)) (body : Json) :
    Except PipeError (PostResult × List (Option Json)) := do
  let successful ← Root.postValidate body
  pure (⟨"POST", successful⟩, if successful then q ++ [some body] else q)

/-! ## `class Main`: the client receive/acknowledge loop -/

/-- Observable actions of one `Main._client_thread` iteration: a
`self.pipe_object.send` call, or one line printed to stdout. -/
inductive ClientAction where
  | sendCall (m : MessageObject) : ClientAction
  | emit (line : Json) : ClientAction

/-- Whether a client action is a `send` call. -/
def ClientAction.isSendCall : ClientAction → Bool
  | .sendCall _ => true
  | .emit _ => false

/-- The fixed acknowledgement envelope
`MessageObject("PIPECLIENT", "NORELAY", "Acknowledged")` built once
before the loop. -/
def Main.ackMessage : MessageObject :=
  ⟨.str "PIPECLIENT", .str "NORELAY", .str "Acknowledged"⟩

/-- The body of one `Main._client_thread` iteration, as a function of the
list returned by `self.pipe_object.recv()`: on a non-empty (truthy)
result, send the acknowledgement envelope, then print each received
message's serialization; on an empty result, do nothing. -/
def Main.clientIteration (messages : List MessageObject) : List ClientAction :=
  if messages.isEmpty then []
  else
    ClientAction.sendCall Main.ackMessage ::
      messages.map (fun m => ClientAction.emit m.to_json)

/-! ## Helper lemmas -/

/-- A present key is retrievable: `dictGet` succeeds on it. -/
theorem dictGet_ok_of_hasKey (m : List (String × Json)) (k : String)
    (h : dictHasKey m k = true) : ∃ v, dictGet m k = .ok v := by
  induction m with
  | nil => simp [dictHasKey] at h
  | cons p rest ih =>
    obtain ⟨k', v⟩ := p
    cases hpk : (k' == k) with
    | true => exact ⟨v, by simp [dictGet, hpk]⟩
    | false =>
      have h' : dictHasKey rest k = true := by
        simpa [dictHasKey, hpk] using h
      obtain ⟨w, hw⟩ := ih h'
      exact ⟨w, by simp [dictGet, hpk, hw]⟩

/-- A successful `dictGet` means the key is present. -/
theorem hasKey_of_dictGet_ok (m : List (String × Json)) (k : String) (v : Json)
    (h : dictGet m k = .ok v) : dictHasKey m k = true := by
  induction m with
  | nil => simp [dictGet] at h
  | cons p rest ih =>
    obtain ⟨k', w⟩ := p
    cases hpk : (k' == k) with
    | true => simp [dictHasKey, hpk]
    | false =>
      simp only [dictGet, hpk, if_false, Bool.false_eq_true, if_neg] at h
      simp only [dictHasKey, List.any_cons, hpk, Bool.false_or]
      exact ih h

/-- Lookup `dictGet` either succeeds or raises a `KeyError` carrying its key. -/
theorem dictGet_char (m : List (String × Json)) (k : String) :
    dictGet m k = .error (.MissingField k) ∨ ∃ v, dictGet m k = .ok v := by
  induction m with
  | nil => exact .inl rfl
  | cons p rest ih =>
    obtain ⟨k', v⟩ := p
    cases hpk : (k' == k) with
    | true => exact .inr ⟨v, by simp [dictGet, hpk]⟩
    | false =>
      rcases ih with h | ⟨w, hw⟩
      · exact .inl (by simp [dictGet, hpk, h])
      · exact .inr ⟨w, by simp [dictGet, hpk, hw]⟩

/-- Parsing a decoded object with all three keys present returns
the envelope built from the three looked-up values. -/
theorem from_json_obj_ok (m : List (String × Json))
    (hs : dictHasKey m "source" = true) (hd : dictHasKey m "destination" = true)
    (hc : dictHasKey m "content" = true) (s d c : Json)
    (gs : dictGet m "source" = .ok s) (gd : dictGet m "destination" = .ok d)
    (gc : dictGet m "content" = .ok c) :
    MessageObject.from_json (some (.obj m)) = .ok ⟨s, d, c⟩ := by
  simp [MessageObject.from_json, requireKey, pyContains, pyIndex, hs, hd, hc, gs, gd, gc]

/-- Parsing a decoded object never raises a `JSONDecodeError`. -/
theorem from_json_obj_not_malformed (m : List (String × Json)) :
    MessageObject.from_json (some (.obj m)) ≠ .error .MalformedPayload := by
  cases hc : dictHasKey m "content" with
  | false => simp [MessageObject.from_json, requireKey, pyContains, hc]
  | true =>
    cases hs : dictHasKey m "source" with
    | false => simp [MessageObject.from_json, requireKey, pyContains, hc, hs]
    | true =>
      cases hd : dictHasKey m "destination" with
      | false => simp [MessageObject.from_json, requireKey, pyContains, hc, hs, hd]
      | true =>
        obtain ⟨s, gs⟩ := dictGet_ok_of_hasKey m "source" hs
        obtain ⟨d, gd⟩ := dictGet_ok_of_hasKey m "destination" hd
        obtain ⟨c, gc⟩ := dictGet_ok_of_hasKey m "content" hc
        simp [from_json_obj_ok m hs hd hc s d c gs gd gc]

/-- Parsing a decoded value that is not an object fails, and the failure
is a `TypeError` or a `KeyError` (`MissingField`) — never a
`JSONDecodeError` (`MalformedPayload`). -/
theorem from_json_nonobj_fails (v : Json) (hv : ∀ m, v ≠ Json.obj m) :
    ∃ e, MessageObject.from_json (some v) = .error e ∧
      (e = .TypeErr ∨ ∃ f, e = .MissingField f) := by
  cases v with
  | null => exact ⟨.TypeErr, rfl, .inl rfl⟩
  | bool b => exact ⟨.TypeErr, rfl, .inl rfl⟩
  | num n => exact ⟨.TypeErr, rfl, .inl rfl⟩
  | obj m => exact absurd rfl (hv m)
  | str s =>
    cases h1 : strContainsSub s "content" <;>
      cases h2 : strContainsSub s "source" <;>
        cases h3 : strContainsSub s "destination" <;>
          simp [MessageObject.from_json, requireKey, pyContains, pyIndex, h1, h2, h3]
  | arr l =>
    cases h1 : l.any (fun e => e.isStrEq "content") <;>
      cases h2 : l.any (fun e => e.isStrEq "source") <;>
        cases h3 : l.any (fun e => e.isStrEq "destination") <;>
          simp [MessageObject.from_json, requireKey, pyContains, pyIndex, h1, h2, h3]

/-- Parsing reports `MalformedPayload` exactly on invalid JSON. -/
theorem from_json_malformed_iff (o : Option Json) :
    MessageObject.from_json o = .error .MalformedPayload ↔ o = none := by
  cases o with
  | none => simp [MessageObject.from_json]
  | some v =>
    simp only [Option.some_ne_none, iff_false]
    cases v with
    | obj m => exact from_json_obj_not_malformed m
    | null => simp [MessageObject.from_json, requireKey, pyContains]
    | bool b => simp [MessageObject.from_json, requireKey, pyContains]
    | num n => simp [MessageObject.from_json, requireKey, pyContains]
    | str s =>
      obtain ⟨e, he, hke⟩ := from_json_nonobj_fails (.str s) (by intro m h; cases h)
      rw [he]
      rcases hke with h | ⟨f, h⟩ <;> simp [h]
    | arr l =>
      obtain ⟨e, he, hke⟩ := from_json_nonobj_fails (.arr l) (by intro m h; cases h)
      rw [he]
      rcases hke with h | ⟨f, h⟩ <;> simp [h]

/-! ## The claims -/

/-- Claim C1: for every envelope built from three string fields, parsing
the string produced by serializing it yields an envelope with the same
three field values. -/
theorem claim_C1_roundtrip (s d c : String) :
    MessageObject.from_json (some (MessageObject.to_json ⟨.str s, .str d, .str c⟩)) =
      .ok ⟨.str s, .str d, .str c⟩ := rfl

/-- Claim C2, counterexample: the input string `"[]"` is valid JSON but
does not decode to an object, so the claim demands `MalformedPayload`;
the code's validation loop instead raises the `KeyError` modelled as
`MissingField "content"`. -/
theorem claim_C2_counterexample :
    MessageObject.from_json (some (.arr [])) = .error (.MissingField "content") ∧
      PipeError.MissingField "content" ≠ PipeError.MalformedPayload :=
  ⟨rfl, by decide⟩

/-- Claim C2, amended: parsing fails with `MalformedPayload` exactly when
the input is not valid JSON; on a decoded object it succeeds when all of
`source`, `destination`, `content` are present and fails with a
`MissingField` naming an absent key otherwise; on a decoded non-object
value it fails with a `MissingField` or a `TypeError`, never with
`MalformedPayload`. -/
theorem claim_C2_amended (o : Option Json) :
    (MessageObject.from_json o = .error .MalformedPayload ↔ o = none) ∧
    (∀ m : List (String × Json), o = some (.obj m) →
      ((dictHasKey m "source" && dictHasKey m "destination" && dictHasKey m "content") = true →
        ∃ e, MessageObject.from_json o = .ok e) ∧
      ((dictHasKey m "source" && dictHasKey m "destination" && dictHasKey m "content") = false →
        ∃ f, MessageObject.from_json o = .error (.MissingField f) ∧ dictHasKey m f = false)) ∧
    (∀ v : Json, o = some v → (∀ m, v ≠ Json.obj m) →
      ∃ e, MessageObject.from_json o = .error e ∧
        (e = .TypeErr ∨ ∃ f, e = .MissingField f)) := by
  refine ⟨from_json_malformed_iff o, ?_, ?_⟩
  · intro m ho
    subst ho
    constructor
    · intro hall
      simp only [Bool.and_eq_true] at hall
      obtain ⟨⟨hs, hd⟩, hc⟩ := hall
      obtain ⟨s, gs⟩ := dictGet_ok_of_hasKey m "source" hs
      obtain ⟨d, gd⟩ := dictGet_ok_of_hasKey m "destination" hd
      obtain ⟨c, gc⟩ := dictGet_ok_of_hasKey m "content" hc
      exact ⟨⟨s, d, c⟩, from_json_obj_ok m hs hd hc s d c gs gd gc⟩
    · intro hmiss
      cases hc : dictHasKey m "content" with
      | false =>
        exact ⟨"content", by simp [MessageObject.from_json, requireKey, pyContains, hc], hc⟩
      | true =>
        cases hs : dictHasKey m "source" with
        | false =>
          exact ⟨"source",
            by simp [MessageObject.from_json, requireKey, pyContains, hc, hs], hs⟩
        | true =>
          cases hd : dictHasKey m "destination" with
          | false =>
            exact ⟨"destination",
              by simp [MessageObject.from_json, requireKey, pyContains, hc, hs, hd], hd⟩
          | true => simp [hs, hd, hc] at hmiss
  · intro v ho hv
    subst ho
    exact from_json_nonobj_fails v hv

/-- Claim C2, witness: the amended theorem applied to the decoded object
`{"source": "a"}` (destination and content absent). -/
theorem claim_C2_witness :
    ∃ f, MessageObject.from_json (some (.obj [("source", .str "a")])) =
        .error (.MissingField f) ∧ dictHasKey [("source", Json.str "a")] f = false := by
  refine ((claim_C2_amended (some (.obj [("source", .str "a")]))).2.1
      [("source", .str "a")] rfl).2 ?_
  decide

/-- Claim C3: in SERVER mode, `send` of an envelope whose destination is
the string `"NORELAY"` performs zero peer writes and raises nothing,
whatever the connected peers would do with a write. -/
theorem claim_C3_norelay (st : PipeState) (w : SendWorld) (m : MessageObject)
    (hmode : st.mode = some "SERVER") (hhandle : st.pipe_handle.isSome = true)
    (hdest : m.destination = .str "NORELAY") :
    NamedPipeInterface.send st w m = ⟨[], none⟩ := by
  simp [NamedPipeInterface.send, NamedPipeInterface.is_server, hmode, hdest,
    Json.isStrEq, pyFalsyStr, Option.isNone_iff_eq_none,
    Option.isSome_iff_exists.mp hhandle]
  intro h
  obtain ⟨x, hx⟩ := Option.isSome_iff_exists.mp hhandle
  simp [hx] at h

/-- Claim C3, witness: a bound SERVER session with two connected peers
and the fixed acknowledgement envelope (destination `"NORELAY"`). -/
theorem claim_C3_witness :
    NamedPipeInterface.send ⟨some "SERVER", "relay", some .server⟩ ⟨[true, true], true⟩
      Main.ackMessage = ⟨[], none⟩ :=
  claim_C3_norelay ⟨some "SERVER", "relay", some .server⟩ ⟨[true, true], true⟩
    Main.ackMessage rfl rfl rfl

/-- The fan-out loop over peers that all accept the write: every peer is
written, in enumeration order, and no exception is raised. -/
theorem fanoutWrites_all_ok (p : Json) (k : Nat) : ∀ i : Nat,
    NamedPipeInterface.fanoutWrites p (List.replicate k true) i =
      ((List.range' i k).map (fun j => (j, p)), none) := by
  induction k with
  | zero => intro i; rfl
  | succ n ih =>
    intro i
    simp [List.replicate_succ, NamedPipeInterface.fanoutWrites, ih (i + 1), List.range'_succ]

/-- The fan-out loop when the peer at offset `k` is the first whose write
raises: exactly the first `k` peers are written, in enumeration order,
and the exception propagates. -/
theorem fanoutWrites_first_fail (p : Json) (k : Nat) : ∀ (i : Nat) (rest : List Bool),
    NamedPipeInterface.fanoutWrites p (List.replicate k true ++ false :: rest) i =
      ((List.range' i k).map (fun j => (j, p)), some .WriteError) := by
  induction k with
  | zero => intro i rest; rfl
  | succ n ih =>
    intro i rest
    simp [List.replicate_succ, NamedPipeInterface.fanoutWrites, ih (i + 1) rest,
      List.range'_succ]

/-- A peer whose solo `recv` contributes nothing is transparent to the
SERVER `recv` loop wherever it sits among the other peers. -/
theorem recvServerLoop_skip (p : RecvPeer)
    (hp : NamedPipeInterface.recvServerLoop [p] = []) :
    ∀ a b : List RecvPeer,
      NamedPipeInterface.recvServerLoop (a ++ p :: b) =
        NamedPipeInterface.recvServerLoop (a ++ b) := by
  intro a
  induction a with
  | nil =>
    intro b
    cases p with
    | notReadable => rfl
    | readRaises => rfl
    | msg raw =>
      cases hr : MessageObject.from_json raw with
      | ok m => simp [NamedPipeInterface.recvServerLoop, hr] at hp
      | error e => simp [NamedPipeInterface.recvServerLoop, hr]
  | cons hd tl ih =>
    intro b
    cases hd with
    | notReadable => simpa [NamedPipeInterface.recvServerLoop] using ih b
    | readRaises => simpa [NamedPipeInterface.recvServerLoop] using ih b
    | msg raw =>
      cases hr : MessageObject.from_json raw with
      | ok m => simp [NamedPipeInterface.recvServerLoop, hr, ih b]
      | error e => simp [NamedPipeInterface.recvServerLoop, hr, ih b]

/-- Claim C4: error propagation is asymmetric between `send` and `recv`
in SERVER mode.  For a fan-out `send` of a non-`"NORELAY"` envelope the
serialized envelope is written to the peers in enumeration order and the
first failing write aborts the rest (peers before it keep their completed
writes, the exception propagates); when every write succeeds, all peers
are written in order and the call returns normally.  For `recv`, a peer
whose read raises, or whose message fails to parse, is skipped, and the
result is the same as if that peer were absent — the envelopes of all
other readable peers are still returned. -/
theorem claim_C4_asymmetry :
    (∀ (st : PipeState) (w : SendWorld) (m : MessageObject) (k : Nat) (rest : List Bool),
      st.mode = some "SERVER" → st.pipe_handle.isSome = true →
      m.destination.isStrEq "NORELAY" = false →
      w.peers = List.replicate k true ++ false :: rest →
      NamedPipeInterface.send st w m =
        ⟨(List.range k).map (fun j => (j, m.to_json)), some .WriteError⟩) ∧
    (∀ (st : PipeState) (w : SendWorld) (m : MessageObject) (k : Nat),
      st.mode = some "SERVER" → st.pipe_handle.isSome = true →
      m.destination.isStrEq "NORELAY" = false →
      w.peers = List.replicate k true →
      NamedPipeInterface.send st w m =
        ⟨(List.range k).map (fun j => (j, m.to_json)), none⟩) ∧
    (∀ (st : PipeState) (a b : List RecvPeer) (cr : Option (Option Json)),
      st.mode = some "SERVER" → st.pipe_handle.isSome = true →
      NamedPipeInterface.recv st ⟨a ++ RecvPeer.readRaises :: b, cr⟩ =
        NamedPipeInterface.recv st ⟨a ++ b, cr⟩) ∧
    (∀ (st : PipeState) (a b : List RecvPeer) (raw : Option Json) (e : PipeError)
      (cr : Option (Option Json)),
      st.mode = some "SERVER" → st.pipe_handle.isSome = true →
      MessageObject.from_json raw = .error e →
      NamedPipeInterface.recv st ⟨a ++ RecvPeer.msg raw :: b, cr⟩ =
        NamedPipeInterface.recv st ⟨a ++ b, cr⟩) := by
  refine ⟨?_, ?_, ?_, ?_⟩
  · intro st w m k rest hmode hhandle hdest hpeers
    obtain ⟨h0, hx⟩ := Option.isSome_iff_exists.mp hhandle
    simp [NamedPipeInterface.send, NamedPipeInterface.is_server, hmode, hdest, hx,
      pyFalsyStr, hpeers, fanoutWrites_first_fail, List.range_eq_range']
  · intro st w m k hmode hhandle hdest hpeers
    obtain ⟨h0, hx⟩ := Option.isSome_iff_exists.mp hhandle
    simp [NamedPipeInterface.send, NamedPipeInterface.is_server, hmode, hdest, hx,
      pyFalsyStr, hpeers, fanoutWrites_all_ok, List.range_eq_range']
  · intro st a b cr hmode hhandle
    obtain ⟨h0, hx⟩ := Option.isSome_iff_exists.mp hhandle
    simp [NamedPipeInterface.recv, NamedPipeInterface.is_server, hmode, hx, pyFalsyStr,
      recvServerLoop_skip RecvPeer.readRaises rfl a b]
  · intro st a b raw e cr hmode hhandle hraw
    obtain ⟨h0, hx⟩ := Option.isSome_iff_exists.mp hhandle
    have hskip : NamedPipeInterface.recvServerLoop [RecvPeer.msg raw] = [] := by
      simp [NamedPipeInterface.recvServerLoop, hraw]
    simp [NamedPipeInterface.recv, NamedPipeInterface.is_server, hmode, hx, pyFalsyStr,
      recvServerLoop_skip (RecvPeer.msg raw) hskip a b]

/-- Claim C4, witness: a two-peer fan-out whose second write fails keeps
the first completed write and propagates the failure, while a `recv` over
a raising peer followed by a readable peer still returns the readable
peer's envelope. -/
theorem claim_C4_witness :
    NamedPipeInterface.send ⟨some "SERVER", "relay", some .server⟩ ⟨[true, false], true⟩
        ⟨.str "a", .str "b", .str "c"⟩ =
      ⟨[(0, MessageObject.to_json ⟨.str "a", .str "b", .str "c"⟩)], some .WriteError⟩ ∧
    NamedPipeInterface.recv ⟨some "SERVER", "relay", some .server⟩
        ⟨[RecvPeer.readRaises,
          RecvPeer.msg (some (.obj [("source", .str "s"), ("destination", .str "d"),
            ("content", .str "x")]))], none⟩ =
      NamedPipeInterface.recv ⟨some "SERVER", "relay", some .server⟩
        ⟨[RecvPeer.msg (some (.obj [("source", .str "s"), ("destination", .str "d"),
            ("content", .str "x")]))], none⟩ := by
  constructor
  · have h := claim_C4_asymmetry.1 ⟨some "SERVER", "relay", some .server⟩
      ⟨[true, false], true⟩ ⟨.str "a", .str "b", .str "c"⟩ 1 [] rfl rfl rfl rfl
    simpa using h
  · exact claim_C4_asymmetry.2.2.1 ⟨some "SERVER", "relay", some .server⟩ []
      [RecvPeer.msg (some (.obj [("source", .str "s"), ("destination", .str "d"),
        ("content", .str "x")]))] none rfl rfl

/-- Running the drain worker for as many iterations as the queue has
elements empties the queue, keeps the loop alive, and appends to the
`send` trace exactly the successfully parsed payloads in queue order. -/
theorem messageThreadRun_drain (w : SendWorld) :
    ∀ (q : List (Option Json)) (s : RootState), s.alive = true → s.message_queue = q →
      (Root.messageThreadRun w q.length s).sends
          = s.sends ++ q.filterMap (fun p => (MessageObject.from_json p).toOption) ∧
      (Root.messageThreadRun w q.length s).message_queue = [] ∧
      (Root.messageThreadRun w q.length s).alive = true := by
  intro q
  induction q with
  | nil =>
    intro s ha hq
    refine ⟨by simp [Root.messageThreadRun], ?_, ?_⟩
    · simpa [Root.messageThreadRun] using hq
    · simpa [Root.messageThreadRun] using ha
  | cons p rest ih =>
    intro s ha hq
    cases hp : MessageObject.from_json p with
    | error e =>
      have hstep : Root.messageThreadStep w s =
          { s with logs := s.logs + 1, message_queue := rest } := by
        simp [Root.messageThreadStep, ha, hq, hp]
      have hrun := ih { s with logs := s.logs + 1, message_queue := rest } ha rfl
      simp only [List.length_cons, Root.messageThreadRun, hstep]
      simpa [List.filterMap_cons, hp, Except.toOption] using hrun
    | ok m =>
      have hstep : Root.messageThreadStep w s =
          { s with
              sends := s.sends ++ [m],
              logs := s.logs +
                (if (NamedPipeInterface.send s.pipe w m).error.isSome then 1 else 0),
              message_queue := rest } := by
        simp [Root.messageThreadStep, ha, hq, hp]
      have hrun := ih
        { s with
            sends := s.sends ++ [m],
            logs := s.logs +
              (if (NamedPipeInterface.send s.pipe w m).error.isSome then 1 else 0),
            message_queue := rest } ha rfl
      simp only [List.length_cons, Root.messageThreadRun, hstep]
      simpa [List.filterMap_cons, hp, Except.toOption] using hrun

/-- Claim C5: starting the drain worker on a queue holding `v1 .. vN` in
that order and running it for `N` iterations issues the
`TransportSession.send` calls for exactly the successfully parsed
payloads, in exactly the order `v1 .. vN` (strict FIFO — no reordering,
no duplication, via `List.filterMap` of the queue), and consumes the
whole queue from the head. -/
theorem claim_C5_fifo (w : SendWorld) (pipe : PipeState) (q : List (Option Json)) :
    (Root.messageThreadRun w q.length (Root.initState q pipe)).sends
        = q.filterMap (fun p => (MessageObject.from_json p).toOption) ∧
    (Root.messageThreadRun w q.length (Root.initState q pipe)).message_queue = [] := by
  have h := messageThreadRun_drain w q (Root.initState q pipe) rfl rfl
  exact ⟨by simpa [Root.initState] using h.1, h.2.1⟩

/-- Claim C6: one iteration of the worker loop, while alive, sleeps a
fixed 500 ms when the queue is empty; otherwise it removes exactly the
head element (no retry, no requeue), stays alive, and when parsing the
head fails, or parsing succeeds but the `send` raises, it increments the
failure log by one and moves on. -/
theorem claim_C6_worker_robust (w : SendWorld) (s : RootState) (ha : s.alive = true) :
    (s.message_queue = [] →
      Root.messageThreadStep w s = { s with sleeps := s.sleeps ++ [500] }) ∧
    (∀ p rest, s.message_queue = p :: rest →
      (Root.messageThreadStep w s).message_queue = rest ∧
      (Root.messageThreadStep w s).alive = true ∧
      (∀ e, MessageObject.from_json p = .error e →
        Root.messageThreadStep w s =
          { s with logs := s.logs + 1, message_queue := rest }) ∧
      (∀ m, MessageObject.from_json p = .ok m →
        (NamedPipeInterface.send s.pipe w m).error.isSome = true →
        Root.messageThreadStep w s =
          { s with
              sends := s.sends ++ [m], logs := s.logs + 1,
              message_queue := rest })) := by
  constructor
  · intro hq
    simp [Root.messageThreadStep, ha, hq]
  · intro p rest hq
    refine ⟨?_, ?_, ?_, ?_⟩
    · cases hp : MessageObject.from_json p with
      | error e => simp [Root.messageThreadStep, ha, hq, hp]
      | ok m => simp [Root.messageThreadStep, ha, hq, hp]
    · cases hp : MessageObject.from_json p with
      | error e => simp [Root.messageThreadStep, ha, hq, hp]
      | ok m => simp [Root.messageThreadStep, ha, hq, hp]
    · intro e hp
      simp [Root.messageThreadStep, ha, hq, hp]
    · intro m hp hsend
      simp [Root.messageThreadStep, ha, hq, hp, hsend]

/-- Claim C6, witness: the theorem applied to a live worker over an empty
queue (it sleeps 500 ms) — with a fresh pipe state and no peers. -/
theorem claim_C6_witness :
    Root.messageThreadStep ⟨[], true⟩ (Root.initState [] NamedPipeInterface.freshPipe) =
      { Root.initState [] NamedPipeInterface.freshPipe with sleeps := [500] } :=
  (claim_C6_worker_robust ⟨[], true⟩ (Root.initState [] NamedPipeInterface.freshPipe)
    rfl).1 rfl

/-- Claim C7: one client-loop iteration, as a function of the `recv`
result: an empty batch produces no actions at all; a non-empty batch
produces exactly one `send` call, whose argument is the fixed envelope
`("PIPECLIENT", "NORELAY", "Acknowledged")`, as the very first action,
followed by exactly the emissions of the received envelopes. -/
theorem claim_C7_client_ack (messages : List MessageObject) :
    (messages = [] → Main.clientIteration messages = []) ∧
    (messages ≠ [] →
      Main.clientIteration messages =
        ClientAction.sendCall Main.ackMessage ::
          messages.map (fun m => ClientAction.emit m.to_json) ∧
      (Main.clientIteration messages).countP ClientAction.isSendCall = 1 ∧
      (Main.clientIteration messages).head? =
        some (.sendCall Main.ackMessage) ∧
      Main.ackMessage =
        ⟨.str "PIPECLIENT", .str "NORELAY", .str "Acknowledged"⟩) := by
  constructor
  · intro h
    simp [Main.clientIteration, h]
  · intro h
    have hne : messages.isEmpty = false := by
      simpa [List.isEmpty_iff] using h
    refine ⟨by simp [Main.clientIteration, hne], ?_, ?_, rfl⟩
    · simp [Main.clientIteration, hne, List.countP_cons, List.countP_map,
        ClientAction.isSendCall, Function.comp_def]
    · simp [Main.clientIteration, hne]

/-- Claim C7, witness: the theorem applied to a singleton batch. -/
theorem claim_C7_witness :
    Main.clientIteration [⟨.str "s", .str "c", .str "x"⟩] =
      ClientAction.sendCall Main.ackMessage ::
        [(⟨.str "s", .str "c", .str "x"⟩ : MessageObject)].map
          (fun m => ClientAction.emit m.to_json) :=
  ((claim_C7_client_ack [⟨.str "s", .str "c", .str "x"⟩]).2 (by simp)).1

/-- Claim C8: `post_interface` on a decoded JSON object body returns
`{"operation": "POST", "successful": b}` where `b` is false exactly when
one of `source`, `destination`, `content` is absent from the body; on
`b = false` the queue is unchanged and on `b = true` the serialized body
is appended to it. -/
theorem claim_C8_post (m : List (String × Json)) (q : List (Option Json)) :
    Root.post_interface q (.obj m) =
      .ok (⟨"POST",
            dictHasKey m "source" && dictHasKey m "destination" && dictHasKey m "content"⟩,
        if dictHasKey m "source" && dictHasKey m "destination" && dictHasKey m "content"
        then q ++ [some (.obj m)] else q) ∧
    ((dictHasKey m "source" && dictHasKey m "destination" && dictHasKey m "content")
        = false ↔
      (dictHasKey m "source" = false ∨ dictHasKey m "destination" = false ∨
        dictHasKey m "content" = false)) := by
  constructor
  · cases h1 : dictHasKey m "source" <;> cases h2 : dictHasKey m "destination" <;>
      cases h3 : dictHasKey m "content" <;>
        simp only [Root.post_interface, Root.postValidate, pyContains, List.foldlM,
          h1, h2, h3] <;> rfl
  · cases h1 : dictHasKey m "source" <;> cases h2 : dictHasKey m "destination" <;>
      cases h3 : dictHasKey m "content" <;> simp

/-- Claim C9, counterexample: bind a fresh session under the name `"a"`,
then call `bind` again with the name `"b"`.  The second call fails with
`AlreadyBound` as the claim says, but the session state is *not* left
unchanged: `_handle_name` has already overwritten the remembered name
with `"b"` — so the name is not remembered only after a successful
bind/connect. -/
theorem claim_C9_counterexample :
    (NamedPipeInterface.bind
        (NamedPipeInterface.bind NamedPipeInterface.freshPipe (some "a")).2
        (some "b")).1 = .error .AlreadyBound ∧
    (NamedPipeInterface.bind NamedPipeInterface.freshPipe (some "a")).2.pipe_name = "a" ∧
    (NamedPipeInterface.bind
        (NamedPipeInterface.bind NamedPipeInterface.freshPipe (some "a")).2
        (some "b")).2.pipe_name = "b" ∧
    ("b" : String) ≠ "a" :=
  ⟨rfl, rfl, rfl, by decide⟩

/-- Claim C9, amended: `send`/`recv` before bind/connect fail with
`InvalidState` (and, being read-only, leave the state unchanged);
`bind`/`connect` with a falsy name argument and no remembered name fail
with `MissingName` and leave the state unchanged; `bind`/`connect` on a
session that already has a channel fail with `AlreadyBound`, leaving mode
and channel unchanged — but a non-empty name argument is remembered
(overwriting the previous remembered name) even though the call fails, so
the name is remembered by any bind/connect call supplying one, not only
after a first successful bind/connect. -/
theorem claim_C9_amended :
    (∀ (st : PipeState) (w : SendWorld) (rw : RecvWorld) (m : MessageObject),
      st.pipe_handle = none ∨ st.mode = none →
      NamedPipeInterface.send st w m = ⟨[], some .InvalidState⟩ ∧
      NamedPipeInterface.recv st rw = .error .InvalidState) ∧
    (∀ (st : PipeState) (name : Option String),
      pyFalsyStr name = true → st.pipe_name = "" →
      NamedPipeInterface.bind st name = (.error .MissingName, st) ∧
      NamedPipeInterface.connect st name = (.error .MissingName, st)) ∧
    (∀ (st : PipeState) (h : PipeHandle) (n : String),
      st.pipe_handle = some h → n ≠ "" →
      NamedPipeInterface.bind st (some n) =
        (.error .AlreadyBound, { st with pipe_name := n }) ∧
      NamedPipeInterface.connect st (some n) =
        (.error .AlreadyBound, { st with pipe_name := n })) ∧
    (∀ (st : PipeState) (h : PipeHandle) (name : Option String),
      st.pipe_handle = some h → pyFalsyStr name = true → st.pipe_name ≠ "" →
      NamedPipeInterface.bind st name = (.error .AlreadyBound, st) ∧
      NamedPipeInterface.connect st name = (.error .AlreadyBound, st)) := by
  refine ⟨?_, ?_, ?_, ?_⟩
  · intro st w rw m hpre
    rcases hpre with h | h <;>
      exact ⟨by simp [NamedPipeInterface.send, h, pyFalsyStr],
        by simp [NamedPipeInterface.recv, h, pyFalsyStr]⟩
  · intro st name hfalsy hempty
    exact ⟨by simp [NamedPipeInterface.bind, NamedPipeInterface.handle_name, hfalsy, hempty],
      by simp [NamedPipeInterface.connect, NamedPipeInterface.handle_name, hfalsy, hempty]⟩
  · intro st h n hh hn
    constructor
    · simp [NamedPipeInterface.bind, NamedPipeInterface.handle_name, pyFalsyStr, hn, hh]
    · simp [NamedPipeInterface.connect, NamedPipeInterface.handle_name, pyFalsyStr, hn, hh]
  · intro st h name hh hfalsy hne
    constructor
    · simp [NamedPipeInterface.bind, NamedPipeInterface.handle_name, hfalsy, hne, hh]
    · simp [NamedPipeInterface.connect, NamedPipeInterface.handle_name, hfalsy, hne, hh]

/-- Claim C9, witness: `send` on a freshly constructed session fails with
`InvalidState` and performs no writes. -/
theorem claim_C9_witness :
    NamedPipeInterface.send NamedPipeInterface.freshPipe ⟨[true], true⟩ Main.ackMessage =
      ⟨[], some .InvalidState⟩ :=
  (claim_C9_amended.1 NamedPipeInterface.freshPipe ⟨[true], true⟩ ⟨[], none⟩
    Main.ackMessage (.inl rfl)).1

/-- Claim C10: parsing a decoded JSON object that contains the three
required keys plus arbitrary additional keys succeeds; the extra keys are
discarded — the result is built from the three looked-up values only, its
serialization carries exactly the three required keys, and any other
object with the same three values parses to the same result. -/
theorem claim_C10_extra_keys (m : List (String × Json))
    (hs : dictHasKey m "source" = true) (hd : dictHasKey m "destination" = true)
    (hc : dictHasKey m "content" = true) :
    ∃ s d c,
      dictGet m "source" = .ok s ∧ dictGet m "destination" = .ok d ∧
      dictGet m "content" = .ok c ∧
      MessageObject.from_json (some (.obj m)) = .ok ⟨s, d, c⟩ ∧
      MessageObject.to_json ⟨s, d, c⟩ =
        .obj [("source", s), ("destination", d), ("content", c)] ∧
      (∀ m' : List (String × Json),
        dictGet m' "source" = .ok s → dictGet m' "destination" = .ok d →
        dictGet m' "content" = .ok c →
        MessageObject.from_json (some (.obj m')) =
          MessageObject.from_json (some (.obj m))) := by
  obtain ⟨s, gs⟩ := dictGet_ok_of_hasKey m "source" hs
  obtain ⟨d, gd⟩ := dictGet_ok_of_hasKey m "destination" hd
  obtain ⟨c, gc⟩ := dictGet_ok_of_hasKey m "content" hc
  refine ⟨s, d, c, gs, gd, gc, from_json_obj_ok m hs hd hc s d c gs gd gc, rfl, ?_⟩
  intro m' gs' gd' gc'
  rw [from_json_obj_ok m' (hasKey_of_dictGet_ok m' "source" s gs')
      (hasKey_of_dictGet_ok m' "destination" d gd')
      (hasKey_of_dictGet_ok m' "content" c gc') s d c gs' gd' gc',
    from_json_obj_ok m hs hd hc s d c gs gd gc]

/-- Claim C10, witness: the theorem applied to an object carrying the
three required keys and an extra key `"extra"`. -/
theorem claim_C10_witness :
    ∃ s d c,
      dictGet [("source", Json.str "a"), ("destination", Json.str "b"),
          ("content", Json.str "c"), ("extra", Json.num 1)] "source" = .ok s ∧
      dictGet [("source", Json.str "a"), ("destination", Json.str "b"),
          ("content", Json.str "c"), ("extra", Json.num 1)] "destination" = .ok d ∧
      dictGet [("source", Json.str "a"), ("destination", Json.str "b"),
          ("content", Json.str "c"), ("extra", Json.num 1)] "content" = .ok c ∧
      MessageObject.from_json (some (.obj [("source", Json.str "a"),
          ("destination", Json.str "b"), ("content", Json.str "c"),
          ("extra", Json.num 1)])) = .ok ⟨s, d, c⟩ ∧
      MessageObject.to_json ⟨s, d, c⟩ =
        .obj [("source", s), ("destination", d), ("content", c)] ∧
      (∀ m' : List (String × Json),
        dictGet m' "source" = .ok s → dictGet m' "destination" = .ok d →
        dictGet m' "content" = .ok c →
        MessageObject.from_json (some (.obj m')) =
          MessageObject.from_json (some (.obj [("source", Json.str "a"),
            ("destination", Json.str "b"), ("content", Json.str "c"),
            ("extra", Json.num 1)]))) :=
  claim_C10_extra_keys [("source", Json.str "a"), ("destination", Json.str "b"),
    ("content", Json.str "c"), ("extra", Json.num 1)] rfl rfl rfl
